import Mathlib

/-!
Verification of the Task Tracker Pro core: the task store and its
sort/filter/paginate view pipeline, as implemented in the page component
(`TaskTrackerPage`) and `src/lib/types.ts`.

The embedding follows the source:
* a JS `Date` is its epoch-millisecond value, modelled as `Int`;
* an optional field (`link?: string`) is an `Option`, `none` being JS
  `undefined`;
* `Math.random()`-derived id suffixes and `Date.now()` are explicit inputs
  (a draw stream / a clock value), so that the stateful handlers become pure
  state transformers;
* JS `Array.prototype.sort` (stable since ES2019) with a three-way comparator
  `c` is the stable `List.mergeSort` with the relation `c a b ≤ 0`;
* `localStorage` is a single optional slot holding the serialized records;
  `JSON.stringify`/`JSON.parse` are modelled at the level of the record tree
  they exchange, an ISO-8601 date string being represented by the
  calendar/time fields it displays (the rendering of those fields to text is
  injective).
-/

namespace TaskTracker

/-- Task status, from `src/lib/types.ts`: the union `'Pending' | 'Completed'`. -/
inductive TaskStatus where
  | Pending
  | Completed
deriving DecidableEq, Repr

/-- The string literal a status is stored and rendered as. -/
def TaskStatus.toText : TaskStatus → String
  | .Pending => "Pending"
  | .Completed => "Completed"

/-- A task, from `src/lib/types.ts`: `id`, `date` (a JS `Date`, modelled by its
epoch-millisecond value), `description`, optional `link`, `status`. -/
structure Task where
  id : String
  date : Int
  description : String
  link : Option String
  status : TaskStatus
deriving DecidableEq, Repr

/-- The sortable fields: `keyof Task`. -/
inductive SortKey where
  | id
  | date
  | description
  | link
  | status
deriving DecidableEq, Repr

/-- Sort direction: the union `'ascending' | 'descending'`. -/
inductive SortDirection where
  | ascending
  | descending
deriving DecidableEq, Repr

/-- The `sortConfig` state: `key : keyof Task | null` and a direction. -/
structure SortConfig where
  key : Option SortKey
  direction : SortDirection
deriving DecidableEq, Repr

/-- Initial sort state: `useState({ key: 'date', direction: 'descending' })`. -/
def defaultSortConfig : SortConfig := ⟨some .date, .descending⟩

/-- The dynamic value `task[key]` read by the sort comparator: a string, a
`Date`, or JS `undefined` (an absent optional field). -/
inductive FieldValue where
  | str (s : String)
  | time (t : Int)
  | undef
deriving DecidableEq, Repr

/-- Field lookup `task[sortConfig.key]` as performed by the comparator. -/
def Task.field (t : Task) : SortKey → FieldValue
  | .id => .str t.id
  | .date => .time t.date
  | .description => .str t.description
  | .link =>
    match t.link with
    | some s => .str s
    | none => .undef
  | .status => .str t.status.toText

/-- Model of `String.prototype.localeCompare` as a three-way comparison; the
locale collation is modelled by code-point order, with which it agrees on the
ASCII data this application compares. -/
def localeCompare (a b : String) : Int :=
  if a < b then -1 else if b < a then 1 else 0

/-- The typed comparison computed in the comparator body: strings via
`localeCompare`, dates via `getTime` subtraction; a mixed pair leaves
`comparison` at `0` (the source's fall-through). -/
def FieldValue.compare : FieldValue → FieldValue → Int
  | .str a, .str b => localeCompare a b
  | .time a, .time b => a - b
  | _, _ => 0

/-- The comparator passed to `tempTasks.sort` in `filteredTasks`: `undefined`
values sort to the end when ascending and to the beginning when descending
(this branch returns directly, without the direction flip); otherwise the
typed comparison is computed and the direction flips its sign. -/
def taskCompare (key : SortKey) (dir : SortDirection) (a b : Task) : Int :=
  let aValue := a.field key
  let bValue := b.field key
  if aValue = .undef ∧ bValue = .undef then 0
  else if aValue = .undef then
    match dir with
    | .ascending => 1
    | .descending => -1
  else if bValue = .undef then
    match dir with
    | .ascending => -1
    | .descending => 1
  else
    let comparison := aValue.compare bValue
    match dir with
    | .ascending => comparison
    | .descending => -comparison

/-- Sorting stage of `filteredTasks`: the source copies `tasks` and sorts the
copy in place when `sortConfig.key` is set.  JS `Array.prototype.sort` is
stable, so it is the stable merge sort under the relation `compare ≤ 0`. -/
def sortTasks (cfg : SortConfig) (ts : List Task) : List Task :=
  match cfg.key with
  | none => ts
  | some k => ts.mergeSort fun a b => decide (taskCompare k cfg.direction a b ≤ 0)

/-! ### Calendar conversion (JS `Date` rendering and ISO serialization)

Epoch milliseconds to civil (proleptic Gregorian, UTC) date and back, after
Howard Hinnant's `civil_from_days` / `days_from_civil` algorithms, which is
what `Date` arithmetic amounts to. -/

/-- Milliseconds per day. -/
def msPerDay : Int := 86400000

/-- Year-of-era from day-of-era, `doe < 146097`. -/
def civilYoe (doe : Nat) : Nat :=
  (doe - doe / 1460 + doe / 36524 - doe / 146096) / 365

/-- Day-of-year (March-based) from day-of-era. -/
def civilDoy (doe : Nat) : Nat :=
  doe - (365 * civilYoe doe + civilYoe doe / 4 - civilYoe doe / 100)

/-- March-based month index in `[0, 11]` from day-of-era. -/
def civilMp (doe : Nat) : Nat :=
  (5 * civilDoy doe + 2) / 153

/-- Day of month in `[1, 31]` from day-of-era. -/
def civilDay (doe : Nat) : Nat :=
  civilDoy doe - (153 * civilMp doe + 2) / 5 + 1

/-- Calendar month in `[1, 12]` from day-of-era. -/
def civilMonth (doe : Nat) : Nat :=
  if civilMp doe < 10 then civilMp doe + 3 else civilMp doe - 9

/-- Days since the epoch to civil year/month/day (JS floor division, which for
the positive constant moduli used here is Lean's Int `/` and `%`). -/
def civilFromDays (z : Int) : Int × Nat × Nat :=
  let z' := z + 719468
  let era := z' / 146097
  let doe := (z' % 146097).toNat
  (era * 400 + civilYoe doe + (if civilMonth doe ≤ 2 then 1 else 0),
   civilMonth doe, civilDay doe)

/-- Day-of-era from year-of-era, month and day. -/
def doeOfCivil (yoe m d : Nat) : Nat :=
  365 * yoe + yoe / 4 - yoe / 100 +
    ((153 * (if 2 < m then m - 3 else m + 9) + 2) / 5 + d - 1)

/-- Civil year/month/day to days since the epoch. -/
def daysFromCivil (y : Int) (m d : Nat) : Int :=
  let y' := y - (if m ≤ 2 then 1 else 0)
  let era := y' / 400
  let yoe := (y' % 400).toNat
  era * 146097 + (doeOfCivil yoe m d : Int) - 719468

/-- Day-of-era round trip through the civil decomposition. -/
def doeRoundTrip (doe : Nat) : Nat :=
  doeOfCivil (civilYoe doe) (civilMonth doe) (civilDay doe)

/-! ### Date rendering (date-fns `format`) -/

/-- Zero-pad a number to two digits. -/
def pad2 (n : Nat) : String :=
  if n < 10 then "0" ++ toString n else toString n

/-- Render a (possibly negative) year, zero-padded to four digits. -/
def padYear (y : Int) : String :=
  if y < 0 then "-" ++ padYearNat y.natAbs else padYearNat y.toNat
where
  padYearNat (n : Nat) : String :=
    if n < 10 then "000" ++ toString n
    else if n < 100 then "00" ++ toString n
    else if n < 1000 then "0" ++ toString n
    else toString n

/-- Model of date-fns `format(date, 'yyyy-MM-dd')` (rendered in UTC; the
source renders in the local zone, which only shifts which instant maps to
which calendar day). -/
def formatYMD (t : Int) : String :=
  let c := civilFromDays (t / msPerDay)
  padYear c.1 ++ "-" ++ pad2 c.2.1 ++ "-" ++ pad2 c.2.2

/-- English month name, for the long date format. -/
def monthName : Nat → String
  | 1 => "January"
  | 2 => "February"
  | 3 => "March"
  | 4 => "April"
  | 5 => "May"
  | 6 => "June"
  | 7 => "July"
  | 8 => "August"
  | 9 => "September"
  | 10 => "October"
  | 11 => "November"
  | 12 => "December"
  | _ => ""

/-- English ordinal suffix for a day of month. -/
def ordinalSuffix (d : Nat) : String :=
  if d % 100 = 11 ∨ d % 100 = 12 ∨ d % 100 = 13 then "th"
  else if d % 10 = 1 then "st"
  else if d % 10 = 2 then "nd"
  else if d % 10 = 3 then "rd"
  else "th"

/-- Model of date-fns `format(date, 'PPP')` for the en-US locale: the long
localized date, e.g. `April 29th, 1453`. -/
def formatPPP (t : Int) : String :=
  let c := civilFromDays (t / msPerDay)
  monthName c.2.1 ++ " " ++ toString c.2.2 ++ ordinalSuffix c.2.2 ++ ", " ++
    toString c.1

/-! ### ISO-8601 serialization of a Date -/

/-- The fields displayed by the ISO-8601 string `Date.prototype.toISOString`
produces (always UTC).  The rendering of these fields to the actual text
`YYYY-MM-DDTHH:mm:ss.sssZ` is injective, so the string is modelled by the
fields. -/
structure IsoDate where
  year : Int
  month : Nat
  day : Nat
  hour : Nat
  minute : Nat
  second : Nat
  millis : Nat
deriving DecidableEq, Repr

/-- Model of `Date.prototype.toISOString` (the serialization `JSON.stringify`
applies to a `Date`). -/
def toISOString (t : Int) : IsoDate :=
  let ms := (t % msPerDay).toNat
  let c := civilFromDays (t / msPerDay)
  { year := c.1, month := c.2.1, day := c.2.2,
    hour := ms / 3600000, minute := ms % 3600000 / 60000,
    second := ms % 60000 / 1000, millis := ms % 1000 }

/-- Model of `new Date(isoString)` applied to a string produced by
`toISOString`: the instant the ISO fields denote. -/
def parseISO (iso : IsoDate) : Int :=
  daysFromCivil iso.year iso.month iso.day * msPerDay +
    (iso.hour * 3600000 + iso.minute * 60000 + iso.second * 1000 + iso.millis)

/-! ### Search filter -/

/-- Model of JS `String.prototype.toLowerCase` on one character, restricted
to the ASCII range the application's data uses. -/
def jsCharToLower (c : Char) : Char :=
  if 65 ≤ c.toNat ∧ c.toNat ≤ 90 then Char.ofNat (c.toNat + 32) else c

/-- Model of JS `String.prototype.toLowerCase` (ASCII case mapping). -/
def jsToLower (s : String) : String := ⟨s.data.map jsCharToLower⟩

/-- Model of JS `String.prototype.includes`: substring test on the character
sequences. -/
def strIncludes (s sub : String) : Bool :=
  go s.data
where
  go : List Char → Bool
    | [] => sub.data.isPrefixOf []
    | c :: cs => sub.data.isPrefixOf (c :: cs) || go cs

/-- The search predicate of `filteredTasks`: lower-cased description, the
date as `yyyy-MM-dd` (digits only, so not lower-cased in the source), the
lower-cased long date, or the lower-cased status text contains the
lower-cased search term. -/
def matchesSearch (searchTerm : String) (task : Task) : Bool :=
  let lower := jsToLower searchTerm
  strIncludes (jsToLower task.description) lower ||
  strIncludes (formatYMD task.date) lower ||
  strIncludes (jsToLower (formatPPP task.date)) lower ||
  strIncludes (jsToLower task.status.toText) lower

/-! ### View pipeline -/

/-- The constant `TASKS_PER_PAGE`. -/
def TASKS_PER_PAGE : Nat := 30

/-- The `filteredTasks` memo: copy `tasks`, sort the copy when a sort key is
set, then filter by the search term when it is non-empty (JS string
truthiness: only the empty string is falsy). -/
def filteredTasks (tasks : List Task) (searchTerm : String) (cfg : SortConfig) :
    List Task :=
  let tempTasks := sortTasks cfg tasks
  if searchTerm = "" then tempTasks
  else tempTasks.filter (matchesSearch searchTerm)

/-- The `totalPages` value: `Math.ceil(filteredTasks.length / TASKS_PER_PAGE)`
(no minimum is applied in the source). -/
def totalPages (tasks : List Task) (searchTerm : String) (cfg : SortConfig) :
    Nat :=
  ((filteredTasks tasks searchTerm cfg).length + TASKS_PER_PAGE - 1) /
    TASKS_PER_PAGE

/-- The clamp `Math.max(1, Math.min(page, totalPages || 1))` applied both in
the `paginatedTasks` memo (as `validCurrentPage`) and in `goToPage`; `tp` is
the `totalPages` value, `0` when nothing matches. -/
def validCurrentPage (cp : Int) (tp : Nat) : Int :=
  max 1 (min cp (if tp = 0 then 1 else (tp : Int)))

/-- The `paginatedTasks` memo: clamp the current page, then
`filteredTasks.slice(startIndex, startIndex + TASKS_PER_PAGE)`. -/
def paginatedTasks (tasks : List Task) (searchTerm : String) (cfg : SortConfig)
    (currentPage : Int) : List Task :=
  let ft := filteredTasks tasks searchTerm cfg
  let p := validCurrentPage currentPage (totalPages tasks searchTerm cfg)
  ((ft.drop ((p - 1).toNat * TASKS_PER_PAGE)).take TASKS_PER_PAGE)

/-- The `goToPage` handler's new page value:
`Math.max(1, Math.min(page, totalPages || 1))`. -/
def goToPage (page : Int) (tp : Nat) : Int :=
  max 1 (min page (if tp = 0 then 1 else (tp : Int)))

/-! ### View state and event handlers -/

/-- The component state the pipeline is driven by: the `useState` hooks
`tasks`, `searchTerm`, `sortConfig`, `currentPage`. -/
structure ViewState where
  tasks : List Task
  searchTerm : String
  sortConfig : SortConfig
  currentPage : Int
deriving Repr

/-- Initial component state: `useState<Task[]>([])`, `useState("")`,
the default sort config, `useState(1)`. -/
def initialViewState : ViewState :=
  { tasks := [], searchTerm := "", sortConfig := defaultSortConfig,
    currentPage := 1 }

/-- One render of the derived view: the `filteredTasks` / `totalPages` /
`paginatedTasks` memos, together with the safeguard
`setCurrentPage(validCurrentPage)` that `paginatedTasks` performs when the
stored page is out of range.  Returns the state after the safeguard write and
the page of tasks handed to the table. -/
def deriveView (st : ViewState) : ViewState × List Task :=
  let tp := totalPages st.tasks st.searchTerm st.sortConfig
  let p := validCurrentPage st.currentPage tp
  ({ st with currentPage := p },
   paginatedTasks st.tasks st.searchTerm st.sortConfig st.currentPage)

/-- The `requestSort` handler: same key while ascending flips to descending,
anything else yields ascending; the current page is reset to 1. -/
def requestSort (key : SortKey) (st : ViewState) : ViewState :=
  let direction :=
    if st.sortConfig.key = some key ∧ st.sortConfig.direction = .ascending
    then SortDirection.descending else SortDirection.ascending
  { st with sortConfig := ⟨some key, direction⟩, currentPage := 1 }

/-- The `handleSearchChange` handler: store the new term and reset the
current page to 1. -/
def handleSearchChange (value : String) (st : ViewState) : ViewState :=
  { st with searchTerm := value, currentPage := 1 }

/-- The `clearSearch` handler: empty the term and reset the current page
to 1. -/
def clearSearch (st : ViewState) : ViewState :=
  { st with searchTerm := "", currentPage := 1 }

/-- The validated form value handed to `handleAddTask` / `handleUpdateTask`:
`date`, `description`, `link` (a form string, possibly empty), `status`. -/
structure TaskInput where
  date : Int
  description : String
  link : String
  status : TaskStatus
deriving DecidableEq, Repr

/-- Model of `generateId`, which appends to `'_'` the random suffix
`Math.random().toString(36).substr(2, 9)`; the drawn suffix `r` is an
explicit input. -/
def generateId (r : String) : String := "_" ++ r

/-- The new `Task` built by `handleAddTask`: fresh id, and
`link: values.link || undefined` (the empty string becomes absent). -/
def buildTask (values : TaskInput) (r : String) : Task :=
  { id := generateId r, date := values.date,
    description := values.description,
    link := if values.link = "" then none else some values.link,
    status := values.status }

/-- The `handleAddTask` handler: prepend the new task, go back to page 1 and
reset the sort to the default (date, descending). -/
def handleAddTask (values : TaskInput) (r : String) (st : ViewState) :
    ViewState :=
  { st with tasks := buildTask values r :: st.tasks,
            currentPage := 1,
            sortConfig := defaultSortConfig }

/-- A sequence of `add` calls: each element carries the validated form value
and the random suffix drawn for it. -/
def runAdds (adds : List (TaskInput × String)) (st : ViewState) : ViewState :=
  adds.foldl (fun s p => handleAddTask p.1 p.2 s) st

/-! ### Persistence adapter -/

/-- One record of the persisted JSON array (`JSON.stringify(tasks)`): `date`
is the ISO-8601 string a `Date` serializes to, modelled by the calendar/time
fields it displays; `link := none` is a record with the key omitted;
`status` is the stored string literal. -/
structure TaskRecord where
  id : String
  date : IsoDate
  description : String
  link : Option String
  status : String
deriving DecidableEq, Repr

/-- Serialization of one task, as performed inside `JSON.stringify`. -/
def serializeTask (t : Task) : TaskRecord :=
  { id := t.id, date := toISOString t.date, description := t.description,
    link := t.link, status := t.status.toText }

/-- The save effect body: `localStorage.setItem("tasks",
JSON.stringify(tasks))`. -/
def saveTasks (ts : List Task) : List TaskRecord := ts.map serializeTask

/-- Reading back the stored status string.  The source spreads the parsed
record and trusts the string to be a `TaskStatus`; the trust is made explicit
with an `Option`. -/
def statusOfText (s : String) : Option TaskStatus :=
  if s = "Pending" then some .Pending
  else if s = "Completed" then some .Completed
  else none

/-- The load mapping applied to each parsed record:
`{ ...task, date: new Date(task.date) }`. -/
def loadTask (r : TaskRecord) : Option Task :=
  (statusOfText r.status).map fun st =>
    { id := r.id, date := parseISO r.date, description := r.description,
      link := r.link, status := st }

/-- Loading the whole stored array. -/
def loadTasks (rs : List TaskRecord) : Option (List Task) :=
  rs.mapM loadTask

/-! ### Mount-time load, seeding, and the save effect -/

/-- The deterministic-shape sample data seeded on first run (35 tasks; ids
come from the draw stream `ids`, dates from the mount-time clock `now`):
decreasing dates, a link on every fifth task, `Completed` on every third. -/
def dummyTasks (ids : Nat → String) (now : Int) : List Task :=
  (List.range 35).map fun i =>
    { id := generateId (ids i),
      date := now - i * msPerDay,
      description := "Sample Task " ++ toString (i + 1) ++
        " description about something important.",
      link := if i % 5 = 0 then
          some ("https://example.com/task/" ++ toString (i + 1))
        else none,
      status := if i % 3 = 0 then TaskStatus.Completed else .Pending }

/-- The mount-time load effect: parse the stored collection when the slot is
occupied, otherwise seed the dummy tasks and persist them immediately.
Returns the tasks put into state and the store content afterwards. -/
def loadEffect (stored : Option (List TaskRecord)) (ids : Nat → String)
    (now : Int) : Option (List Task) × Option (List TaskRecord) :=
  match stored with
  | some rs => (loadTasks rs, some rs)
  | none =>
    (some (dummyTasks ids now), some (saveTasks (dummyTasks ids now)))

/-- A toast notification `(title, description, destructive?)`. -/
structure Toast where
  title : String
  description : String
  destructive : Bool
deriving DecidableEq, Repr

/-- Component state plus the persisted slot. -/
structure AppState where
  view : ViewState
  store : Option (List TaskRecord)

/-- The save effect: `localStorage.setItem` inside `try`; on failure
(`saveFails`, the environment's choice: quota exceeded etc.) the store is
left as it was and a destructive toast is emitted — the in-memory state is
not touched in either branch. -/
def saveEffect (saveFails : Bool) (st : AppState) : AppState × List Toast :=
  if saveFails then
    (st, [⟨"Error Saving Tasks", "Could not save tasks locally.", true⟩])
  else
    ({ st with store := some (saveTasks st.view.tasks) }, [])

/-- An `add` user action followed by the reactive save effect: the handler
mutates the view state and toasts success, then the effect persists (or
fails to). -/
def addThenSave (values : TaskInput) (r : String) (saveFails : Bool)
    (st : AppState) : AppState × List Toast :=
  let st' : AppState := { st with view := handleAddTask values r st.view }
  let out := saveEffect saveFails st'
  (out.1, ⟨"Success", "Task added successfully.", false⟩ :: out.2)

/-- The `list()` read: the rendered collection is the `tasks` state. -/
def listTasks (st : AppState) : List Task := st.view.tasks

/-- Effective visibility predicate of the filter stage, all terms uniformly:
under the empty search term the source skips filtering, so every task is
visible. -/
def visibleUnder (s : String) (t : Task) : Bool :=
  if s = "" then true else matchesSearch s t

/-- A concrete task used to instantiate theorems on concrete inputs. -/
def sampleTask : Task :=
  { id := "_t", date := 0, description := "alpha", link := none,
    status := .Pending }

/-! ## Calendar lemmas

The civil conversion is inverted by a sandwich argument: the year-of-era
formula is monotone in the day-of-era, and it is exact on the 400 year
boundaries of an era, which a finite check establishes. -/

/-- First day-of-era of year-of-era `y` (valid for `y ≤ 399`). -/
def eraStart (y : Nat) : Nat := 365 * y + y / 4 - y / 100

/-- Last day-of-era of year-of-era `y`. -/
def eraEnd (y : Nat) : Nat := if y = 399 then 146096 else eraStart (y + 1) - 1

theorem yoeNumer_mono (d : Nat) :
    d - d / 1460 + d / 36524 - d / 146096 ≤
      (d + 1) - (d + 1) / 1460 + (d + 1) / 36524 - (d + 1) / 146096 := by
  omega

theorem civilYoe_mono : Monotone civilYoe := by
  apply monotone_nat_of_le_succ
  intro d
  exact Nat.div_le_div_right (yoeNumer_mono d)

set_option maxRecDepth 4000 in
theorem civilYoe_boundary : ∀ y : Nat, y < 400 →
    (civilYoe (eraStart y) = y ∧ civilYoe (eraEnd y) = y ∧
     eraStart y ≤ eraEnd y ∧ eraEnd y ≤ eraStart y + 365) := by decide

theorem civilYoe_le (doe : Nat) (h : doe < 146097) : civilYoe doe ≤ 399 := by
  have h1 : civilYoe doe ≤ civilYoe 146096 := civilYoe_mono (by omega)
  have h2 : civilYoe 146096 = 399 := by decide
  omega

theorem civilYoe_sandwich (doe : Nat) (h : doe < 146097) :
    eraStart (civilYoe doe) ≤ doe ∧ doe ≤ eraEnd (civilYoe doe) := by
  have hy : civilYoe doe ≤ 399 := civilYoe_le doe h
  constructor
  · by_contra hlt
    push_neg at hlt
    rcases Nat.eq_zero_or_pos (civilYoe doe) with h0 | hpos
    · rw [h0] at hlt
      simp [eraStart] at hlt
    · have hle : doe ≤ eraEnd (civilYoe doe - 1) := by
        have hne : civilYoe doe - 1 ≠ 399 := by omega
        simp only [eraEnd, hne, if_false]
        have he : civilYoe doe - 1 + 1 = civilYoe doe := by omega
        rw [he]
        omega
      have hmono := civilYoe_mono hle
      have hb := (civilYoe_boundary (civilYoe doe - 1) (by omega)).2.1
      omega
  · by_contra hgt
    push_neg at hgt
    rcases Nat.lt_or_ge (civilYoe doe) 399 with h399 | h399
    · have hge : eraStart (civilYoe doe + 1) ≤ doe := by
        have hne : civilYoe doe ≠ 399 := by omega
        simp only [eraEnd, hne, if_false] at hgt
        have hb := (civilYoe_boundary (civilYoe doe) (by omega)).2.2.1
        have hb2 := (civilYoe_boundary (civilYoe doe + 1) (by omega)).2.2.1
        simp only [eraEnd] at hb hb2
        omega
      have hmono := civilYoe_mono hge
      have hb := (civilYoe_boundary (civilYoe doe + 1) (by omega)).1
      omega
    · have he : civilYoe doe = 399 := by omega
      rw [he] at hgt
      simp [eraEnd] at hgt
      omega

theorem doeFacts (doe : Nat) (h : doe < 146097) :
    doeRoundTrip doe = doe ∧ civilYoe doe ≤ 399 ∧
    1 ≤ civilMonth doe ∧ civilMonth doe ≤ 12 := by
  have hy := civilYoe_le doe h
  have hc := civilYoe_sandwich doe h
  have hdoy : civilDoy doe ≤ 365 := by
    have hb := (civilYoe_boundary (civilYoe doe) (by omega)).2.2.2
    simp only [eraStart] at hc hb
    simp only [civilDoy]
    simp only [eraEnd, eraStart] at hc
    split_ifs at hc <;> omega
  have hstart :
      365 * civilYoe doe + civilYoe doe / 4 - civilYoe doe / 100 ≤ doe := by
    have h1 := hc.1
    simpa [eraStart] using h1
  have hdoy_eq : civilDoy doe =
      doe - (365 * civilYoe doe + civilYoe doe / 4 - civilYoe doe / 100) := rfl
  have hmp : civilMp doe ≤ 11 := by
    simp only [civilMp]
    omega
  refine ⟨?_, hy, ?_, ?_⟩
  · simp only [doeRoundTrip, doeOfCivil, civilMonth, civilDay]
    have hmp_eq : civilMp doe = (5 * civilDoy doe + 2) / 153 := rfl
    split_ifs with h10 h11 h12 <;> omega
  · simp only [civilMonth]; split_ifs <;> omega
  · simp only [civilMonth]; split_ifs <;> omega

theorem daysFromCivil_reassemble (era : Int) (doe : Nat) (h : doe < 146097) :
    daysFromCivil
        (era * 400 + civilYoe doe + (if civilMonth doe ≤ 2 then 1 else 0))
        (civilMonth doe) (civilDay doe) = era * 146097 + doe - 719468 := by
  obtain ⟨hrt, hy399, hm1, hm12⟩ := doeFacts doe h
  simp only [daysFromCivil]
  set yoe := civilYoe doe with hyoe
  set m := civilMonth doe with hm
  set d := civilDay doe with hd
  have hcancel : era * 400 + (yoe : Int) + (if m ≤ 2 then (1:Int) else 0) -
      (if m ≤ 2 then (1:Int) else 0) = era * 400 + (yoe : Int) := by ring
  rw [hcancel]
  have hediv : (era * 400 + (yoe : Int)) / 400 = era := by omega
  have hemod : ((era * 400 + (yoe : Int)) % 400).toNat = yoe := by omega
  rw [hediv, hemod]
  have hde : doeOfCivil yoe m d = doe := hrt
  rw [hde]

theorem daysFromCivil_civilFromDays (z : Int) :
    daysFromCivil (civilFromDays z).1 (civilFromDays z).2.1
      (civilFromDays z).2.2 = z := by
  have h1 : ((z + 719468) % 146097).toNat < 146097 := by omega
  have h2 := daysFromCivil_reassemble ((z + 719468) / 146097)
    (((z + 719468) % 146097).toNat) h1
  have h3 : daysFromCivil (civilFromDays z).1 (civilFromDays z).2.1
      (civilFromDays z).2.2
      = daysFromCivil
        ((z + 719468) / 146097 * 400 +
          civilYoe (((z + 719468) % 146097).toNat) +
          (if civilMonth (((z + 719468) % 146097).toNat) ≤ 2 then 1 else 0))
        (civilMonth (((z + 719468) % 146097).toNat))
        (civilDay (((z + 719468) % 146097).toNat)) := rfl
  rw [h3, h2]
  omega

theorem parseISO_toISOString (t : Int) : parseISO (toISOString t) = t := by
  simp only [parseISO, toISOString]
  rw [daysFromCivil_civilFromDays]
  have hms : (0 : Int) ≤ t % msPerDay ∧ t % msPerDay < msPerDay := by
    constructor
    · exact Int.emod_nonneg t (by simp [msPerDay])
    · exact Int.emod_lt_of_pos t (by simp [msPerDay])
  simp only [msPerDay] at hms ⊢
  omega

/-! ## Persistence round-trip lemmas -/

theorem loadTask_serializeTask (t : Task) :
    loadTask (serializeTask t) = some t := by
  cases t with
  | mk id date description link status =>
    cases status <;>
      simp [loadTask, serializeTask, statusOfText, TaskStatus.toText,
        parseISO_toISOString]

/-! ## Claim theorems -/

/-- C4: persisting and then reloading returns the same collection field for
field: `load(save(tasks)) = tasks`, the date round-tripping as a calendar
date/time and the link absent/present distinction preserved exactly (the
record equality includes `link`, and `none` only ever maps to `none`). -/
theorem load_save_roundTrip (ts : List Task) :
    loadTasks (saveTasks ts) = some ts := by
  induction ts with
  | nil => rfl
  | cons t ts ih =>
    simp only [saveTasks, List.map_cons, loadTasks, List.mapM_cons]
    simp only [saveTasks, loadTasks] at ih
    rw [loadTask_serializeTask, ih]
    rfl

/-- C3: the view pipeline is side-effect-free: one derivation step (the three
memos plus the `setCurrentPage` safeguard) leaves the task collection — its
elements and their stored insertion order — and the rest of the view inputs
unchanged, and its output is the pure `paginatedTasks` function of the
inputs. -/
theorem deriveView_pure (st : ViewState) :
    (deriveView st).1.tasks = st.tasks ∧
    (deriveView st).1.searchTerm = st.searchTerm ∧
    (deriveView st).1.sortConfig = st.sortConfig ∧
    (deriveView st).2 =
      paginatedTasks st.tasks st.searchTerm st.sortConfig st.currentPage :=
  ⟨rfl, rfl, rfl, rfl⟩

/-- C8: every handler that changes the search term (`handleSearchChange`,
`clearSearch`) and every handler that changes the sort key or direction
(`requestSort`, and `handleAddTask`, which resets the sort) sets the current
page back to 1. -/
theorem term_or_sort_change_resets_page (st : ViewState) (key : SortKey)
    (v : String) (values : TaskInput) (r : String) :
    (requestSort key st).currentPage = 1 ∧
    (handleSearchChange v st).currentPage = 1 ∧
    (clearSearch st).currentPage = 1 ∧
    (handleAddTask values r st).currentPage = 1 :=
  ⟨rfl, rfl, rfl, rfl⟩

/-- C9: when the persistence write fails after an `add`, the in-memory
mutation is not rolled back: the new task is still prepended, the store keeps
its old content, the failure is reported as a destructive toast (a non-fatal
notification), and `list()` still reflects the new task. -/
theorem add_survives_save_failure (values : TaskInput) (r : String)
    (st : AppState) :
    (addThenSave values r true st).1.view.tasks =
      buildTask values r :: st.view.tasks ∧
    (addThenSave values r true st).1.store = st.store ∧
    (⟨"Error Saving Tasks", "Could not save tasks locally.", true⟩ : Toast) ∈
      (addThenSave values r true st).2 ∧
    buildTask values r ∈ listTasks (addThenSave values r true st).1 := by
  refine ⟨rfl, rfl, ?_, ?_⟩
  · simp [addThenSave, saveEffect]
  · simp [addThenSave, saveEffect, listTasks, handleAddTask]

theorem sortTasks_nil (cfg : SortConfig) : sortTasks cfg [] = [] := by
  unfold sortTasks
  cases cfg.key <;> simp

theorem sortTasks_singleton (cfg : SortConfig) (t : Task) :
    sortTasks cfg [t] = [t] := by
  unfold sortTasks
  cases cfg.key <;> simp

theorem visibleUnder_empty : visibleUnder "" = fun _ : Task => true :=
  funext fun _ => rfl

theorem filteredTasks_eq_filter (ts : List Task) (s : String)
    (cfg : SortConfig) :
    filteredTasks ts s cfg = (sortTasks cfg ts).filter (visibleUnder s) := by
  by_cases h : s = ""
  · subst h
    rw [visibleUnder_empty, List.filter_true]
    simp [filteredTasks]
  · simp only [filteredTasks, if_neg h]
    exact List.filter_congr fun a _ => by simp [visibleUnder, h]

/-- C1: the view pipeline applies sort first, then filter, then paginate
(the filter acts on the sorted list, and the page is a slice of the filtered
list), and consequently the tasks visible under two search terms appear in
the same relative order under both: restricting either term's visible list to
the tasks also visible under the other term yields the same list. -/
theorem stage_order_and_search_stability (ts : List Task) (cfg : SortConfig)
    (s s1 s2 : String) (cp : Int) :
    filteredTasks ts s cfg = (sortTasks cfg ts).filter (visibleUnder s) ∧
    paginatedTasks ts s cfg cp =
      ((filteredTasks ts s cfg).drop
        ((validCurrentPage cp (totalPages ts s cfg) - 1).toNat *
          TASKS_PER_PAGE)).take TASKS_PER_PAGE ∧
    (filteredTasks ts s1 cfg).filter (visibleUnder s2) =
      (filteredTasks ts s2 cfg).filter (visibleUnder s1) := by
  refine ⟨filteredTasks_eq_filter ts s cfg, rfl, ?_⟩
  rw [filteredTasks_eq_filter ts s1 cfg, filteredTasks_eq_filter ts s2 cfg,
    List.filter_filter, List.filter_filter]
  exact List.filter_congr fun a _ => Bool.and_comm _ _

/-- C2, counterexample: a search term matching zero tasks yields
`totalPages = 0`, not `1` — the source computes
`Math.ceil(filteredTasks.length / TASKS_PER_PAGE)` and applies no minimum. -/
theorem totalPages_zero_matches_ne_one :
    totalPages [sampleTask] "zzz" defaultSortConfig ≠ 1 := by
  have h1 : filteredTasks [sampleTask] "zzz" defaultSortConfig = [] := by
    rw [filteredTasks_eq_filter, sortTasks_singleton]
    have hm : visibleUnder "zzz" sampleTask = false := by decide
    simp [List.filter_cons, hm]
  simp only [totalPages, h1]
  decide

/-- C2, as amended: `totalPages = ceil(matchingCount / 30)` with no minimum
applied, so it is `0` (not `1`) when the search matches zero tasks; the clamp
substitutes `1` for it (`totalPages || 1`), the returned page is empty, and
no error occurs. -/
theorem totalPages_ceil_no_min (ts : List Task) (s : String)
    (cfg : SortConfig) (cp : Int) :
    totalPages ts s cfg =
      ((filteredTasks ts s cfg).length + 29) / 30 ∧
    (filteredTasks ts s cfg).length ≤ 30 * totalPages ts s cfg ∧
    30 * totalPages ts s cfg < (filteredTasks ts s cfg).length + 30 ∧
    ((filteredTasks ts s cfg).length = 0 →
      totalPages ts s cfg = 0 ∧ paginatedTasks ts s cfg cp = [] ∧
      validCurrentPage cp (totalPages ts s cfg) = 1) := by
  have hdef : totalPages ts s cfg =
      ((filteredTasks ts s cfg).length + 29) / 30 := rfl
  refine ⟨hdef, by omega, by omega, fun h0 => ?_⟩
  have hnil : filteredTasks ts s cfg = [] := List.length_eq_zero.mp h0
  have htp : totalPages ts s cfg = 0 := by omega
  refine ⟨htp, ?_, ?_⟩
  · simp [paginatedTasks, hnil]
  · rw [htp]
    simp only [validCurrentPage, if_pos rfl]
    omega

/-- C2, witness for the amended statement at a concrete input. -/
theorem totalPages_ceil_no_min_witness :
    totalPages [] "" defaultSortConfig = 0 ∧
    paginatedTasks [] "" defaultSortConfig 5 = [] ∧
    validCurrentPage 5 (totalPages [] "" defaultSortConfig) = 1 :=
  (totalPages_ceil_no_min [] "" defaultSortConfig 5).2.2.2
    (by rw [filteredTasks_eq_filter, sortTasks_nil]; rfl)

/-- C6: for a non-empty search term, a task is in the filtered list exactly
when it is among the (sorted) tasks and its lower-cased description, its date
in `yyyy-MM-dd` form, its date in the long localized form (lower-cased), or
its lower-cased status text contains the lower-cased term as a substring. -/
theorem filter_stage_characterization (ts : List Task) (s : String)
    (cfg : SortConfig) (t : Task) (h : s ≠ "") :
    t ∈ filteredTasks ts s cfg ↔
      t ∈ sortTasks cfg ts ∧
        (strIncludes (jsToLower t.description) (jsToLower s) = true ∨
         strIncludes (formatYMD t.date) (jsToLower s) = true ∨
         strIncludes (jsToLower (formatPPP t.date)) (jsToLower s) = true ∨
         strIncludes (jsToLower t.status.toText) (jsToLower s) = true) := by
  simp only [filteredTasks, if_neg h]
  rw [List.mem_filter]
  exact and_congr_right fun _ => by
    simp [matchesSearch, Bool.or_eq_true, or_assoc]

/-- C6, witness: the sample task is matched by the term `pend` through its
status text. -/
theorem filter_stage_characterization_witness :
    ("pend" ≠ "") ∧
    (sampleTask ∈ filteredTasks [sampleTask] "pend" defaultSortConfig ↔
      sampleTask ∈ sortTasks defaultSortConfig [sampleTask] ∧
        (strIncludes (jsToLower sampleTask.description) (jsToLower "pend")
           = true ∨
         strIncludes (formatYMD sampleTask.date) (jsToLower "pend") = true ∨
         strIncludes (jsToLower (formatPPP sampleTask.date))
           (jsToLower "pend") = true ∨
         strIncludes (jsToLower sampleTask.status.toText) (jsToLower "pend")
           = true)) :=
  ⟨by decide,
   filter_stage_characterization [sampleTask] "pend" defaultSortConfig
     sampleTask (by decide)⟩

/-- C7: whenever the current page is read to slice the displayed page (and in
`goToPage`), it is clamped: the effective page is at least 1, at most
`max 1 totalPages` (so at most `totalPages` whenever any task matches), an
in-range page is left unchanged, and the page of tasks is always the slice at
the clamped page — defined for every current-page value, with no error. -/
theorem currentPage_clamped (ts : List Task) (s : String) (cfg : SortConfig)
    (cp : Int) :
    1 ≤ validCurrentPage cp (totalPages ts s cfg) ∧
    validCurrentPage cp (totalPages ts s cfg) ≤
      max 1 (totalPages ts s cfg : Int) ∧
    (1 ≤ totalPages ts s cfg →
      validCurrentPage cp (totalPages ts s cfg) ≤
        (totalPages ts s cfg : Int)) ∧
    (1 ≤ cp → cp ≤ (totalPages ts s cfg : Int) →
      validCurrentPage cp (totalPages ts s cfg) = cp) ∧
    paginatedTasks ts s cfg cp =
      ((filteredTasks ts s cfg).drop
        ((validCurrentPage cp (totalPages ts s cfg) - 1).toNat *
          TASKS_PER_PAGE)).take TASKS_PER_PAGE ∧
    goToPage cp (totalPages ts s cfg) =
      validCurrentPage cp (totalPages ts s cfg) := by
  refine ⟨?_, ?_, ?_, ?_, rfl, rfl⟩ <;>
    · simp only [validCurrentPage]
      split_ifs <;> omega

/-- C7, witness: an out-of-range page (99) is silently corrected into range,
and an in-range page (1) is kept. -/
theorem currentPage_clamped_witness :
    validCurrentPage 99 (totalPages [sampleTask] "" defaultSortConfig) ≤
      (totalPages [sampleTask] "" defaultSortConfig : Int) ∧
    validCurrentPage 1 (totalPages [sampleTask] "" defaultSortConfig) = 1 := by
  have htp : totalPages [sampleTask] "" defaultSortConfig = 1 := by
    simp only [totalPages, filteredTasks_eq_filter, sortTasks_singleton,
      visibleUnder_empty, List.filter_true]
    rfl
  exact ⟨(currentPage_clamped [sampleTask] "" defaultSortConfig 99).2.2.1
      (by rw [htp]),
    (currentPage_clamped [sampleTask] "" defaultSortConfig 1).2.2.2.1
      (by decide) (by rw [htp]; decide)⟩

theorem runAdds_tasks (adds : List (TaskInput × String)) (st : ViewState) :
    (runAdds adds st).tasks =
      (adds.map fun p => buildTask p.1 p.2).reverse ++ st.tasks := by
  induction adds generalizing st with
  | nil => simp [runAdds]
  | cons p ps ih =>
    show (runAdds ps (handleAddTask p.1 p.2 st)).tasks = _
    rw [ih]
    simp [handleAddTask]

theorem generateId_injective :
    Function.Injective (fun r : String => "_" ++ r) := by
  intro a b hab
  have h1 : ("_" ++ a).data = ("_" ++ b).data := congrArg String.data hab
  simp only [String.data_append] at h1
  exact String.ext (List.append_cancel_left h1)

/-- C5, counterexample: `generateId` derives the id from a `Math.random`
draw; when two adds happen to draw the same suffix (here `x`), the resulting
collection has two tasks with the same id — nothing in the code prevents
this. -/
theorem add_ids_can_collide :
    ((runAdds [((⟨0, "X", "", .Pending⟩ : TaskInput), "x"), ((⟨0, "Y", "", .Pending⟩ : TaskInput), "x")]
        initialViewState).tasks.map Task.id) = ["_x", "_x"] ∧
    ¬ ((runAdds [((⟨0, "X", "", .Pending⟩ : TaskInput), "x"), ((⟨0, "Y", "", .Pending⟩ : TaskInput), "x")]
        initialViewState).tasks.map Task.id).Nodup :=
  ⟨rfl, by decide⟩

/-- C5, as amended: whenever the random suffixes drawn by the sequence of
`add` calls are pairwise distinct, the assigned ids are pairwise distinct, so
the collection contains no two tasks with the same id; distinctness of the
draws is exactly what `Math.random` makes overwhelmingly likely but does not
guarantee. -/
theorem add_ids_distinct_of_distinct_draws (adds : List (TaskInput × String))
    (h : (adds.map Prod.snd).Nodup) :
    ((runAdds adds initialViewState).tasks.map Task.id).Nodup := by
  rw [runAdds_tasks]
  simp only [initialViewState, List.append_nil, List.map_reverse,
    List.nodup_reverse, List.map_map]
  have he : (Task.id ∘ fun p : TaskInput × String => buildTask p.1 p.2) =
      (fun r => "_" ++ r) ∘ Prod.snd := rfl
  rw [he, ← List.map_map]
  exact List.Nodup.map generateId_injective h

/-- C5, witness for the amended statement: two adds with distinct draws. -/
theorem add_ids_distinct_of_distinct_draws_witness :
    (([((⟨0, "X", "", TaskStatus.Pending⟩ : TaskInput), "a"),
       ((⟨0, "Y", "", TaskStatus.Pending⟩ : TaskInput), "b")].map Prod.snd).Nodup) ∧
    ((runAdds [((⟨0, "X", "", TaskStatus.Pending⟩ : TaskInput), "a"),
       ((⟨0, "Y", "", TaskStatus.Pending⟩ : TaskInput), "b")]
        initialViewState).tasks.map Task.id).Nodup :=
  ⟨by decide, add_ids_distinct_of_distinct_draws _ (by decide)⟩

theorem taskCompare_date_desc (a b : Task) :
    taskCompare .date .descending a b = -(a.date - b.date) := rfl

/-- C10, counterexample: two first runs do not produce the same task
collection — the seeded ids come from `Math.random` draws (and the dates
from the mount-time clock), so runs with different draws differ. -/
theorem seeding_not_reproducible :
    dummyTasks (fun _ => "a") 0 ≠ dummyTasks (fun _ => "b") 0 := by decide

/-- C10, as amended: on first run (empty store) the caller seeds 35 sample
tasks and persists them immediately; the collection's shape is deterministic
— its length, descriptions, link pattern and statuses are the same for every
draw stream and clock — and its dates are strictly decreasing, so the
default date-descending sort lists it unchanged; but the ids and absolute
dates depend on the run's random draws and clock, so two first runs agree
only up to those. -/
theorem seeding_deterministic_shape (ids : Nat → String) (now : Int) :
    (dummyTasks ids now).length = 35 ∧
    loadEffect none ids now =
      (some (dummyTasks ids now), some (saveTasks (dummyTasks ids now))) ∧
    (dummyTasks ids now).Pairwise (fun a b => b.date < a.date) ∧
    sortTasks defaultSortConfig (dummyTasks ids now) = dummyTasks ids now ∧
    filteredTasks (dummyTasks ids now) "" defaultSortConfig =
      dummyTasks ids now ∧
    ∀ (ids2 : Nat → String) (now2 : Int),
      (dummyTasks ids now).map (fun t => (t.description, t.link, t.status)) =
        (dummyTasks ids2 now2).map
          fun t => (t.description, t.link, t.status) := by
  have hdates : (dummyTasks ids now).Pairwise fun a b => b.date < a.date := by
    unfold dummyTasks
    rw [List.pairwise_map]
    refine List.Pairwise.imp ?_ (List.pairwise_lt_range 35)
    intro a b hab
    show now - (b : Int) * msPerDay < now - (a : Int) * msPerDay
    simp only [msPerDay]
    omega
  have hsort : sortTasks defaultSortConfig (dummyTasks ids now) =
      dummyTasks ids now := by
    show (dummyTasks ids now).mergeSort
      (fun a b => decide (taskCompare .date .descending a b ≤ 0)) = _
    apply List.mergeSort_of_sorted
    refine List.Pairwise.imp ?_ hdates
    intro a b hab
    rw [taskCompare_date_desc]
    simp only [decide_eq_true_eq]
    omega
  refine ⟨by simp [dummyTasks], rfl, hdates, hsort, ?_, ?_⟩
  · rw [filteredTasks_eq_filter, hsort, visibleUnder_empty, List.filter_true]
  · intro ids2 now2
    rfl

end TaskTracker
